import Mathlib

/-!
Shallow embedding of the etherparse IP header dispatch
(`src/etherparse/src/internet/ip_header.rs`) and the ICMPv6 codec
(`src/src/transport/icmpv6.rs`). Octet buffers are `List Nat` whose
entries stand for `u8` values; multi-octet reads are big-endian.
Components of the repository that are not part of the provided sources
(the fixed-header codecs, the extension walkers, the checksum
accumulator) are modelled from the specification and marked as such.
-/

/-- Octet read with default 0, standing for an in-bounds `u8` access. -/
def byteAt (l : List Nat) (i : Nat) : Nat := l.getD i 0

/-- Big-endian 16-bit read at offset `i`. -/
def read_be16 (l : List Nat) (i : Nat) : Nat :=
  byteAt l i * 256 + byteAt l (i + 1)

/-- Big-endian 32-bit read at offset `i`. -/
def read_be32 (l : List Nat) (i : Nat) : Nat :=
  ((byteAt l i * 256 + byteAt l (i + 1)) * 256 + byteAt l (i + 2)) * 256
    + byteAt l (i + 3)

/-- Big-endian bytes of a `u32` value, as `u32::to_be_bytes`. -/
def u32_be_bytes (n : Nat) : List Nat :=
  [n / 16777216 % 256, n / 65536 % 256, n / 256 % 256, n % 256]

/-- Witness identifying which length bound governed a slicing decision
(`err::LenSource`). -/
inductive LenSource
  | Slice
  | Ipv4HeaderTotalLen
  | Ipv6HeaderPayloadLen
deriving DecidableEq

/-- Layer at which a length error was detected (`err::Layer`). -/
inductive Layer
  | IpHeader
  | Ipv4Header
  | Ipv4Packet
  | Ipv6Header
  | Ipv6Packet
  | IpAuthHeader
  | Ipv6HopByHopHeader
  | Ipv6RouteHeader
  | Ipv6FragHeader
  | Ipv6DestOptionsHeader
deriving DecidableEq

/-- Length error record (`err::LenError`). -/
structure LenError where
  required_len : Nat
  len : Nat
  len_source : LenSource
  layer : Layer
  layer_start_offset : Nat
deriving DecidableEq

/-- Content error of the authentication-header codec
(`err::ip_auth::HeaderError`). -/
inductive IpAuthContentError
  | ZeroPayloadLen
deriving DecidableEq

/-- Content error of the IPv6 extension walker
(`err::ipv6_exts::HeaderError`). -/
inductive Ipv6ExtsContentError
  | IpAuth (e : IpAuthContentError)
deriving DecidableEq

/-- Content error of `IpHeader::from_slice` (`err::ip::HeaderError`). -/
inductive IpHeaderError
  | UnsupportedIpVersion (version_number : Nat)
  | Ipv4HeaderLengthSmallerThanHeader (ihl : Nat)
  | Ipv4Ext (e : IpAuthContentError)
  | Ipv6Ext (e : Ipv6ExtsContentError)
deriving DecidableEq

/-- Error of `IpHeader::from_slice` (`err::ip::HeaderSliceError`). -/
inductive HeaderSliceError
  | Len (e : LenError)
  | Content (e : IpHeaderError)
deriving DecidableEq

/-- Error of the authentication-header slice parse
(`err::ip_auth::HeaderSliceError`). -/
inductive IpAuthHeaderSliceError
  | Len (e : LenError)
  | Content (e : IpAuthContentError)
deriving DecidableEq

/-- Error of the IPv6 extension walk
(`err::ipv6_exts::HeaderSliceError`). -/
inductive Ipv6ExtsHeaderSliceError
  | Len (e : LenError)
  | Content (e : Ipv6ExtsContentError)
deriving DecidableEq

/-- Modelled from the spec: the decoded IPv4 fixed header (`Ipv4Fixed`,
spec section 3). Field values are the big-endian integers of the wire
layout; `flags_frag` is the 16-bit field holding the three flag bits and
the 13-bit fragment offset. -/
structure Ipv4Header where
  ihl : Nat
  tos : Nat
  total_len : Nat
  identification : Nat
  flags_frag : Nat
  ttl : Nat
  protocol : Nat
  header_checksum : Nat
  source : List Nat
  destination : List Nat
  options : List Nat
deriving DecidableEq

/-- Modelled from the spec: the IPv4 fixed-header decode
(`FixedHeaderCodec` v4, spec section 4.2; the codec itself is outside
the provided sources). `hdr` is the already-narrowed window of
`ihl * 4` octets. -/
def Ipv4Header.decode (hdr : List Nat) : Ipv4Header :=
  { ihl := byteAt hdr 0 % 16
  , tos := byteAt hdr 1
  , total_len := read_be16 hdr 2
  , identification := read_be16 hdr 4
  , flags_frag := read_be16 hdr 6
  , ttl := byteAt hdr 8
  , protocol := byteAt hdr 9
  , header_checksum := read_be16 hdr 10
  , source := (hdr.drop 12).take 4
  , destination := (hdr.drop 16).take 4
  , options := hdr.drop 20 }

/-- Modelled from the spec: the v4 fragmentation predicate is the
MF-flag-or-nonzero-offset disjunction (spec sections 3 and 8, P6). -/
def Ipv4Header.is_fragmenting_payload (h : Ipv4Header) : Bool :=
  h.flags_frag / 8192 % 2 == 1 || h.flags_frag % 8192 != 0

/-- Modelled from the spec: the decoded IPv6 fixed header (`Ipv6Fixed`,
spec section 3). -/
structure Ipv6Header where
  traffic_class : Nat
  flow_label : Nat
  payload_length : Nat
  next_header : Nat
  hop_limit : Nat
  source : List Nat
  destination : List Nat
deriving DecidableEq

/-- Modelled from the spec: the IPv6 fixed-header decode
(`FixedHeaderCodec` v6, spec section 4.2; the codec itself is outside
the provided sources). `hdr` is the 40-octet window. -/
def Ipv6Header.decode (hdr : List Nat) : Ipv6Header :=
  { traffic_class := byteAt hdr 0 % 16 * 16 + byteAt hdr 1 / 16
  , flow_label := byteAt hdr 1 % 16 * 65536 + byteAt hdr 2 * 256 + byteAt hdr 3
  , payload_length := read_be16 hdr 4
  , next_header := byteAt hdr 6
  , hop_limit := byteAt hdr 7
  , source := (hdr.drop 8).take 16
  , destination := (hdr.drop 24).take 16 }

/-- Modelled from the spec: the IPsec Authentication Header
(`AuthHeader`, spec section 3; the codec itself is outside the provided
sources). -/
structure IpAuthHeader where
  next_header : Nat
  spi : Nat
  sequence_number : Nat
  raw_icv : List Nat
deriving DecidableEq

/-- Modelled from the spec: `AuthHeaderCodec` decode (spec sections 3,
4.3 and 6, confirmed by the repository test
`tests/internet/ipv4_extensions.rs`): minimum 12 octets, a raw length
field of 0 is the `ZeroPayloadLen` content error, the header occupies
`(length_field + 2) * 4` octets. -/
def IpAuthHeader.from_slice (slice : List Nat) :
    Except IpAuthHeaderSliceError (IpAuthHeader × List Nat) :=
  if slice.length < 12 then
    .error (.Len ⟨12, slice.length, .Slice, .IpAuthHeader, 0⟩)
  else if byteAt slice 1 = 0 then
    .error (.Content .ZeroPayloadLen)
  else if slice.length < (byteAt slice 1 + 2) * 4 then
    .error (.Len ⟨(byteAt slice 1 + 2) * 4, slice.length, .Slice, .IpAuthHeader, 0⟩)
  else
    .ok ({ next_header := byteAt slice 0
         , spi := read_be32 slice 4
         , sequence_number := read_be32 slice 8
         , raw_icv := (slice.drop 12).take ((byteAt slice 1 + 2) * 4 - 12) },
         slice.drop ((byteAt slice 1 + 2) * 4))

/-- The IPv4 extension record: an optional Authentication Header slot. -/
structure Ipv4Extensions where
  auth : Option IpAuthHeader
deriving DecidableEq

/-- Modelled from the spec: the degenerate v4 extension walk (spec
section 4.3, confirmed by `tests/internet/ipv4_extensions.rs`): at most
one Authentication Header, chosen iff the incoming IP number is the AH
code 51. -/
def Ipv4Extensions.from_slice (start_ip_number : Nat) (slice : List Nat) :
    Except IpAuthHeaderSliceError (Ipv4Extensions × Nat × List Nat) :=
  if start_ip_number = 51 then
    match IpAuthHeader.from_slice slice with
    | .error e => .error e
    | .ok (h, rest) => .ok (⟨some h⟩, h.next_header, rest)
  else
    .ok (⟨none⟩, start_ip_number, slice)

/-- Modelled from the spec: `set_next_headers` for the v4 extension
record (spec section 8, P5, confirmed by the repository test): returns
the IP number referencing the first element of the chain. -/
def Ipv4Extensions.set_next_headers (e : Ipv4Extensions) (last : Nat) :
    Ipv4Extensions × Nat :=
  match e.auth with
  | none => (e, last)
  | some a => (⟨some { a with next_header := last }⟩, 51)

/-- Modelled from the spec: a generic IPv6 extension header (HopByHop,
Routing, DestinationOptions) kept as its next-header byte plus the raw
body octets. -/
structure Ipv6RawExtHeader where
  next_header : Nat
  payload : List Nat
deriving DecidableEq

/-- Modelled from the spec: the IPv6 Fragment extension header. -/
structure Ipv6FragmentHeader where
  next_header : Nat
  fragment_offset : Nat
  more_fragments : Bool
  identification : Nat
deriving DecidableEq

/-- The IPv6 extension record: one optional slot per recognized kind. -/
structure Ipv6Extensions where
  hop_by_hop : Option Ipv6RawExtHeader
  routing : Option Ipv6RawExtHeader
  fragment : Option Ipv6FragmentHeader
  destination_options : Option Ipv6RawExtHeader
  auth : Option IpAuthHeader
deriving DecidableEq

/-- The empty IPv6 extension record. -/
def Ipv6Extensions.empty : Ipv6Extensions := ⟨none, none, none, none, none⟩

/-- Modelled from the spec: parse of a generic IPv6 extension header
(spec section 4.3): 2 octets for next-header and length-field, total
length `(length_field + 1) * 8`. -/
def parseGenericExt (w : List Nat) (layer : Layer) :
    Except Ipv6ExtsHeaderSliceError (Ipv6RawExtHeader × List Nat) :=
  if w.length < 2 then
    .error (.Len ⟨2, w.length, .Slice, layer, 0⟩)
  else if w.length < (byteAt w 1 + 1) * 8 then
    .error (.Len ⟨(byteAt w 1 + 1) * 8, w.length, .Slice, layer, 0⟩)
  else
    .ok ({ next_header := byteAt w 0
         , payload := (w.drop 2).take ((byteAt w 1 + 1) * 8 - 2) },
         w.drop ((byteAt w 1 + 1) * 8))

/-- Modelled from the spec: parse of the fixed 8-octet IPv6 Fragment
extension header (spec section 4.3). -/
def parseFragmentExt (w : List Nat) :
    Except Ipv6ExtsHeaderSliceError (Ipv6FragmentHeader × List Nat) :=
  if w.length < 8 then
    .error (.Len ⟨8, w.length, .Slice, .Ipv6FragHeader, 0⟩)
  else
    .ok ({ next_header := byteAt w 0
         , fragment_offset := read_be16 w 2 / 8
         , more_fragments := read_be16 w 2 % 2 == 1
         , identification := read_be32 w 4 },
         w.drop 8)

/-- Modelled from the spec: the IPv6 extension chain walk (spec section
4.3): iterate while the current IP number is one of HopByHop 0, Routing
43, Fragment 44, DestinationOptions 60, Authentication 51; the first
instance of a kind is recorded, later duplicates are consumed but not
recorded. The fuel argument bounds the iteration count; the caller
passes more fuel than any chain inside the window can use. -/
def Ipv6Extensions.walk :
    Nat → Ipv6Extensions → Nat → List Nat →
    Except Ipv6ExtsHeaderSliceError (Ipv6Extensions × Nat × List Nat)
  | 0, exts, current, w => .ok (exts, current, w)
  | Nat.succ fuel, exts, current, w =>
    if current = 0 then
      match parseGenericExt w .Ipv6HopByHopHeader with
      | .error e => .error e
      | .ok (h, rest) =>
        Ipv6Extensions.walk fuel
          { exts with hop_by_hop := some (exts.hop_by_hop.getD h) }
          h.next_header rest
    else if current = 43 then
      match parseGenericExt w .Ipv6RouteHeader with
      | .error e => .error e
      | .ok (h, rest) =>
        Ipv6Extensions.walk fuel
          { exts with routing := some (exts.routing.getD h) }
          h.next_header rest
    else if current = 44 then
      match parseFragmentExt w with
      | .error e => .error e
      | .ok (h, rest) =>
        Ipv6Extensions.walk fuel
          { exts with fragment := some (exts.fragment.getD h) }
          h.next_header rest
    else if current = 60 then
      match parseGenericExt w .Ipv6DestOptionsHeader with
      | .error e => .error e
      | .ok (h, rest) =>
        Ipv6Extensions.walk fuel
          { exts with destination_options := some (exts.destination_options.getD h) }
          h.next_header rest
    else if current = 51 then
      match IpAuthHeader.from_slice w with
      | .error (.Len e) => .error (.Len e)
      | .error (.Content e) => .error (.Content (.IpAuth e))
      | .ok (h, rest) =>
        Ipv6Extensions.walk fuel
          { exts with auth := some (exts.auth.getD h) }
          h.next_header rest
    else
      .ok (exts, current, w)

/-- Modelled from the spec: entry point of the IPv6 extension walk. -/
def Ipv6Extensions.from_slice (start : Nat) (w : List Nat) :
    Except Ipv6ExtsHeaderSliceError (Ipv6Extensions × Nat × List Nat) :=
  Ipv6Extensions.walk (w.length + 1) Ipv6Extensions.empty start w

/-- Modelled from the spec: the v6 fragmentation predicate is true iff
the Fragment extension was seen with the MF bit or a non-zero fragment
offset (spec sections 4.3 and 8, P6). -/
def Ipv6Extensions.is_fragmenting_payload (e : Ipv6Extensions) : Bool :=
  match e.fragment with
  | none => false
  | some f => f.more_fragments || f.fragment_offset != 0

/-- Modelled from the spec: `set_next_headers` for the v6 extension
record, chaining in the canonical order HopByHop, Routing, Fragment,
DestinationOptions, Auth (spec sections 4.3 and 8, P5). -/
def Ipv6Extensions.set_next_headers (e : Ipv6Extensions) (last : Nat) :
    Ipv6Extensions × Nat :=
  let sAuth : Option IpAuthHeader × Nat :=
    match e.auth with
    | none => (none, last)
    | some a => (some { a with next_header := last }, 51)
  let sDst : Option Ipv6RawExtHeader × Nat :=
    match e.destination_options with
    | none => (none, sAuth.2)
    | some d => (some { d with next_header := sAuth.2 }, 60)
  let sFrag : Option Ipv6FragmentHeader × Nat :=
    match e.fragment with
    | none => (none, sDst.2)
    | some f => (some { f with next_header := sDst.2 }, 44)
  let sRout : Option Ipv6RawExtHeader × Nat :=
    match e.routing with
    | none => (none, sFrag.2)
    | some r => (some { r with next_header := sFrag.2 }, 43)
  let sHop : Option Ipv6RawExtHeader × Nat :=
    match e.hop_by_hop with
    | none => (none, sRout.2)
    | some h => (some { h with next_header := sRout.2 }, 0)
  (⟨sHop.1, sRout.1, sFrag.1, sDst.1, sAuth.1⟩, sHop.2)

/-- Internet protocol header, version 4 or 6 (`IpHeader`). -/
inductive IpHeader
  | Version4 (h : Ipv4Header) (e : Ipv4Extensions)
  | Version6 (h : Ipv6Header) (e : Ipv6Extensions)
deriving DecidableEq

/-- Payload descriptor returned alongside a parsed header (`IpPayload`). -/
structure IpPayload where
  ip_number : Nat
  fragmented : Bool
  len_source : LenSource
  payload : List Nat
deriving DecidableEq

/-- The v4 delegation step of `IpHeader::from_slice`: run the extension
walk on the narrowed window, adjust nested length errors by adding the
header length to `layer_start_offset` and overriding the length source
with `Ipv4HeaderTotalLen`, wrap content errors, and build the result. -/
def ipv4WalkAndBuild (header : Ipv4Header) (header_len : Nat) (rest : List Nat) :
    Except HeaderSliceError (IpHeader × IpPayload) :=
  match Ipv4Extensions.from_slice header.protocol rest with
  | .error (.Len e) =>
    .error (.Len { e with layer_start_offset := e.layer_start_offset + header_len
                        , len_source := .Ipv4HeaderTotalLen })
  | .error (.Content e) => .error (.Content (.Ipv4Ext e))
  | .ok (exts, next_protocol, rest2) =>
    .ok (.Version4 header exts,
      { ip_number := next_protocol
      , fragmented := header.is_fragmenting_payload
      , len_source := .Ipv4HeaderTotalLen
      , payload := rest2 })

/-- The v6 delegation step of `IpHeader::from_slice`: run the extension
walk on the chosen window, adjust nested length errors by adding 40 to
`layer_start_offset` and overriding the length source with the one that
governed the window, wrap content errors, and build the result. -/
def ipv6WalkAndBuild (header : Ipv6Header) (len_source : LenSource) (window : List Nat) :
    Except HeaderSliceError (IpHeader × IpPayload) :=
  match Ipv6Extensions.from_slice header.next_header window with
  | .error (.Len e) =>
    .error (.Len { e with layer_start_offset := e.layer_start_offset + 40
                        , len_source := len_source })
  | .error (.Content e) => .error (.Content (.Ipv6Ext e))
  | .ok (exts, next_header, rest) =>
    .ok (.Version6 header exts,
      { ip_number := next_header
      , fragmented := exts.is_fragmenting_payload
      , len_source := len_source
      , payload := rest })

/-- `IpHeader::from_slice`: version dispatch, length governance, and
delegation to the extension walk. -/
def IpHeader.from_slice (slice : List Nat) :
    Except HeaderSliceError (IpHeader × IpPayload) :=
  if slice.length = 0 then
    .error (.Len ⟨1, slice.length, .Slice, .IpHeader, 0⟩)
  else if byteAt slice 0 / 16 = 4 then
    if slice.length < 20 then
      .error (.Len ⟨20, slice.length, .Slice, .Ipv4Header, 0⟩)
    else if byteAt slice 0 % 16 < 5 then
      .error (.Content (.Ipv4HeaderLengthSmallerThanHeader (byteAt slice 0 % 16)))
    else if slice.length < byteAt slice 0 % 16 * 4 then
      .error (.Len ⟨byteAt slice 0 % 16 * 4, slice.length, .Slice, .Ipv4Header, 0⟩)
    else if (Ipv4Header.decode (slice.take (byteAt slice 0 % 16 * 4))).total_len
        < byteAt slice 0 % 16 * 4 then
      .error (.Len ⟨byteAt slice 0 % 16 * 4,
        (Ipv4Header.decode (slice.take (byteAt slice 0 % 16 * 4))).total_len,
        .Ipv4HeaderTotalLen, .Ipv4Packet, 0⟩)
    else if slice.length
        < (Ipv4Header.decode (slice.take (byteAt slice 0 % 16 * 4))).total_len then
      .error (.Len ⟨(Ipv4Header.decode (slice.take (byteAt slice 0 % 16 * 4))).total_len,
        slice.length, .Slice, .Ipv4Packet, 0⟩)
    else
      ipv4WalkAndBuild (Ipv4Header.decode (slice.take (byteAt slice 0 % 16 * 4)))
        (byteAt slice 0 % 16 * 4)
        ((slice.drop (byteAt slice 0 % 16 * 4)).take
          ((Ipv4Header.decode (slice.take (byteAt slice 0 % 16 * 4))).total_len
            - byteAt slice 0 % 16 * 4))
  else if byteAt slice 0 / 16 = 6 then
    if slice.length < 40 then
      .error (.Len ⟨40, slice.length, .Slice, .Ipv6Header, 0⟩)
    else if (Ipv6Header.decode (slice.take 40)).payload_length = 0
        ∧ 40 < slice.length then
      ipv6WalkAndBuild (Ipv6Header.decode (slice.take 40)) .Slice (slice.drop 40)
    else if slice.length < 40 + (Ipv6Header.decode (slice.take 40)).payload_length then
      .error (.Len ⟨40 + (Ipv6Header.decode (slice.take 40)).payload_length,
        slice.length, .Slice, .Ipv6Packet, 0⟩)
    else
      ipv6WalkAndBuild (Ipv6Header.decode (slice.take 40)) .Ipv6HeaderPayloadLen
        ((slice.drop 40).take (Ipv6Header.decode (slice.take 40)).payload_length)
  else
    .error (.Content (.UnsupportedIpVersion (byteAt slice 0 / 16)))

/-- Modelled from the spec: the IPv4 ether type number 0x0800
(`EtherType::IPV4.0`, stated by the spec's external-interface list and
the claim sources). -/
def EtherType.IPV4 : Nat := 2048

/-- `IpHeader::set_next_headers`: set all next-header fields through the
extension chain and return the ether type number. The returned pair is
the updated header and the returned `u16`. -/
def IpHeader.set_next_headers (h : IpHeader) (last_next_header : Nat) :
    IpHeader × Nat :=
  match h with
  | .Version4 hdr exts =>
    (.Version4 { hdr with protocol := (exts.set_next_headers last_next_header).2 }
       (exts.set_next_headers last_next_header).1,
     EtherType.IPV4)
  | .Version6 hdr exts =>
    (.Version6 { hdr with next_header := (exts.set_next_headers last_next_header).2 }
       (exts.set_next_headers last_next_header).1,
     EtherType.IPV4)

/-- Error of value-level operations (`ValueError`), restricted to the
variant the ICMPv6 checksum can raise. -/
inductive ValueError
  | Ipv6PayloadLengthTooLarge (n : Nat)
deriving DecidableEq

/-- Error of `Icmpv6HeaderSlice::from_slice` (`ReadError`), restricted
to the variant it can raise. -/
inductive ReadError
  | UnexpectedEndOfSlice (n : Nat)
deriving DecidableEq

/-- Sub-variants of "Destination Unreachable" by code
(`icmpv6::DestUnreachableHeader`). -/
inductive DestUnreachableHeader
  | Raw (code : Nat) (bytes5to8 : List Nat)
  | NoRoute
  | Prohibited
  | BeyondScope
  | Address
  | Port
  | SourceAddressFailedPolicy
  | RejectRoute
deriving DecidableEq

/-- `DestUnreachableHeader::from_bytes`. -/
def DestUnreachableHeader.from_bytes (code : Nat) (bytes5to8 : List Nat) :
    DestUnreachableHeader :=
  if code = 0 then .NoRoute
  else if code = 1 then .Prohibited
  else if code = 2 then .BeyondScope
  else if code = 3 then .Address
  else if code = 4 then .Port
  else if code = 5 then .SourceAddressFailedPolicy
  else if code = 6 then .RejectRoute
  else .Raw code bytes5to8

/-- `DestUnreachableHeader::code`. -/
def DestUnreachableHeader.code : DestUnreachableHeader → Nat
  | .Raw code _ => code
  | .NoRoute => 0
  | .Prohibited => 1
  | .BeyondScope => 2
  | .Address => 3
  | .Port => 4
  | .SourceAddressFailedPolicy => 5
  | .RejectRoute => 6

/-- Code values of "Time Exceeded" (`icmpv6::TimeExceededCode`). -/
inductive TimeExceededCode
  | Raw (code : Nat)
  | HopLimitExceeded
  | FragmentReassemblyTimeExceeded
deriving DecidableEq

/-- `From<u8> for TimeExceededCode`. -/
def TimeExceededCode.fromCode (code : Nat) : TimeExceededCode :=
  if code = 0 then .HopLimitExceeded
  else if code = 1 then .FragmentReassemblyTimeExceeded
  else .Raw code

/-- `From<TimeExceededCode> for u8`. -/
def TimeExceededCode.toCode : TimeExceededCode → Nat
  | .Raw code => code
  | .HopLimitExceeded => 0
  | .FragmentReassemblyTimeExceeded => 1

/-- Code values of "Parameter Problem"
(`icmpv6::ParameterProblemCode`); the source keeps every code raw. -/
inductive ParameterProblemCode
  | Raw (code : Nat)
deriving DecidableEq

/-- `From<u8> for ParameterProblemCode`. -/
def ParameterProblemCode.fromCode (code : Nat) : ParameterProblemCode :=
  .Raw code

/-- `From<ParameterProblemCode> for u8`. -/
def ParameterProblemCode.toCode : ParameterProblemCode → Nat
  | .Raw code => code

/-- Modelled from the spec: the echo id-and-sequence pair carried by
Echo Request and Echo Reply (`IcmpEchoHeader`, outside the provided
sources; spec sections 3 and 4.4). -/
structure IcmpEchoHeader where
  id : Nat
  seq : Nat
deriving DecidableEq

/-- Modelled from the spec: decode of the echo pair from the 4
type-specific bytes, id then sequence, each big-endian 16-bit. -/
def IcmpEchoHeader.from_bytes (bytes5to8 : List Nat) : IcmpEchoHeader :=
  { id := read_be16 bytes5to8 0, seq := read_be16 bytes5to8 2 }

/-- Modelled from the spec: encode of the echo pair, id then sequence,
each big-endian 16-bit. -/
def IcmpEchoHeader.to_bytes (e : IcmpEchoHeader) : List Nat :=
  [e.id / 256 % 256, e.id % 256, e.seq / 256 % 256, e.seq % 256]

/-- Kinds of ICMPv6 messages (`Icmp6Type`). -/
inductive Icmp6Type
  | Raw (icmp_type icmp_code : Nat) (bytes5to8 : List Nat)
  | DestinationUnreachable (h : DestUnreachableHeader)
  | PacketTooBig (mtu : Nat)
  | TimeExceeded (code : TimeExceededCode)
  | ParameterProblem (code : ParameterProblemCode) (pointer : Nat)
  | EchoRequest (h : IcmpEchoHeader)
  | EchoReply (h : IcmpEchoHeader)
deriving DecidableEq

/-- `Icmp6Type::from_bytes`: decode the tagged variant from the type
octet, the code octet, and the 4 type-specific bytes. -/
def Icmp6Type.from_bytes (icmp_type icmp_code : Nat) (bytes5to8 : List Nat) :
    Icmp6Type :=
  if icmp_type = 1 then
    .DestinationUnreachable (DestUnreachableHeader.from_bytes icmp_code bytes5to8)
  else if icmp_type = 2 then
    .PacketTooBig (read_be32 bytes5to8 0)
  else if icmp_type = 3 then
    .TimeExceeded (TimeExceededCode.fromCode icmp_code)
  else if icmp_type = 4 then
    .ParameterProblem (ParameterProblemCode.fromCode icmp_code) (read_be32 bytes5to8 0)
  else if icmp_type = 128 then
    .EchoRequest (IcmpEchoHeader.from_bytes bytes5to8)
  else if icmp_type = 129 then
    .EchoReply (IcmpEchoHeader.from_bytes bytes5to8)
  else
    .Raw icmp_type icmp_code bytes5to8

/-- `Icmp6Type::type_value`. -/
def Icmp6Type.type_value : Icmp6Type → Nat
  | .Raw icmp_type _ _ => icmp_type
  | .DestinationUnreachable _ => 1
  | .PacketTooBig _ => 2
  | .TimeExceeded _ => 3
  | .ParameterProblem _ _ => 4
  | .EchoRequest _ => 128
  | .EchoReply _ => 129

/-- `Icmp6Type::code_value`. -/
def Icmp6Type.code_value : Icmp6Type → Nat
  | .Raw _ icmp_code _ => icmp_code
  | .DestinationUnreachable h => h.code
  | .PacketTooBig _ => 0
  | .TimeExceeded code => code.toCode
  | .ParameterProblem code _ => code.toCode
  | .EchoRequest _ => 0
  | .EchoReply _ => 0

/-- `Icmp6Type::to_bytes`: the type octet, the code octet, and the 4
type-specific bytes of the on-wire format. -/
def Icmp6Type.to_bytes : Icmp6Type → Nat × Nat × List Nat
  | .Raw icmp_type icmp_code bytes5to8 => (icmp_type, icmp_code, bytes5to8)
  | .DestinationUnreachable h => (1, h.code, [0, 0, 0, 0])
  | .PacketTooBig mtu => (2, 0, u32_be_bytes mtu)
  | .TimeExceeded code => (3, code.toCode, [0, 0, 0, 0])
  | .ParameterProblem code pointer => (4, code.toCode, u32_be_bytes pointer)
  | .EchoRequest e => (128, 0, e.to_bytes)
  | .EchoReply e => (129, 0, e.to_bytes)

/-- Modelled from the spec: the 16-bit-word accumulator of the checksum
helper (`checksum::Sum16BitWords`, outside the provided sources): octets
are paired big-endian into 16-bit words, a trailing odd octet is padded
with a zero octet on the right, and the words are summed. -/
def checksumWordsSum : List Nat → Nat
  | a :: b :: rest => a * 256 + b + checksumWordsSum rest
  | [a] => a * 256
  | [] => 0

/-- Modelled from the spec: carry folding of the one's-complement sum,
adding the overflow above 16 bits back into the low 16 bits until the
sum fits. -/
def foldCarries (n : Nat) : Nat :=
  if h : n < 65536 then n
  else foldCarries (n % 65536 + n / 65536)
termination_by n
decreasing_by
  omega

/-- Modelled from the spec: finish of the checksum accumulator
(`ones_complement` then the byte-order conversion, which is the identity
at the value level): fold the carries and invert the 16-bit result. -/
def onesComplement (n : Nat) : Nat := 65535 - foldCarries n

/-- `Icmp6Type::header_len`: always 8. -/
def Icmp6Type.header_len : Icmp6Type → Nat := fun _ => 8

/-- `Icmp6Type::calc_checksum`: guard the total length against the
32-bit limit, then accumulate the pseudo-header words (source address,
destination address, the zero-and-58 next-header word, the message
length truncated to a 16-bit word), the first header word, the 4
type-specific bytes and the payload, and finish the accumulator. -/
def Icmp6Type.calc_checksum (t : Icmp6Type) (ip_header : Ipv6Header)
    (payload : List Nat) : Except ValueError Nat :=
  if 4294967295 - Icmp6Type.header_len t < payload.length then
    .error (.Ipv6PayloadLengthTooLarge payload.length)
  else
    .ok (onesComplement
      (checksumWordsSum ip_header.source
        + checksumWordsSum ip_header.destination
        + 58
        + (payload.length + Icmp6Type.header_len t) % 65536
        + ((Icmp6Type.to_bytes t).1 * 256 + (Icmp6Type.to_bytes t).2.1)
        + checksumWordsSum (Icmp6Type.to_bytes t).2.2
        + checksumWordsSum payload))

/-- The statically sized start of an ICMPv6 packet (`Icmpv6Header`). -/
structure Icmpv6Header where
  icmp_type : Icmp6Type
  checksum : Nat
deriving DecidableEq

/-- `Icmpv6Header::with_checksum`. -/
def Icmpv6Header.with_checksum (icmp_type : Icmp6Type) (ip_header : Ipv6Header)
    (payload : List Nat) : Except ValueError Icmpv6Header :=
  match icmp_type.calc_checksum ip_header payload with
  | .error e => .error e
  | .ok c => .ok { icmp_type := icmp_type, checksum := c }

/-- `Icmpv6Header::is_checksum_valid`. -/
def Icmpv6Header.is_checksum_valid (h : Icmpv6Header) (ip_header : Ipv6Header)
    (payload : List Nat) : Except ValueError Bool :=
  match h.icmp_type.calc_checksum ip_header payload with
  | .error e => .error e
  | .ok c => .ok (h.checksum == c)

/-- `Icmpv6Header::to_bytes`: the 8 on-wire octets. -/
def Icmpv6Header.to_bytes (h : Icmpv6Header) : List Nat :=
  (Icmp6Type.to_bytes h.icmp_type).1
    :: (Icmp6Type.to_bytes h.icmp_type).2.1
    :: h.checksum / 256 % 256
    :: h.checksum % 256
    :: (Icmp6Type.to_bytes h.icmp_type).2.2

/-- A slice holding the first 8 octets of an ICMPv6 packet
(`Icmpv6HeaderSlice`). -/
structure Icmpv6HeaderSlice where
  slice : List Nat
deriving DecidableEq

/-- `Icmpv6HeaderSlice::from_slice`: require 8 octets, keep exactly 8. -/
def Icmpv6HeaderSlice.from_slice (slice : List Nat) :
    Except ReadError Icmpv6HeaderSlice :=
  if slice.length < 8 then
    .error (.UnexpectedEndOfSlice 8)
  else
    .ok ⟨slice.take 8⟩

/-- `Icmpv6HeaderSlice::type_value`: the octet at offset 0. -/
def Icmpv6HeaderSlice.type_value (s : Icmpv6HeaderSlice) : Nat :=
  byteAt s.slice 0

/-- `Icmpv6HeaderSlice::code_value`: the source reads the octet at
offset 0 here as well. -/
def Icmpv6HeaderSlice.code_value (s : Icmpv6HeaderSlice) : Nat :=
  byteAt s.slice 0

/-- `Icmpv6HeaderSlice::checksum`: big-endian 16-bit read at offset 2. -/
def Icmpv6HeaderSlice.checksum (s : Icmpv6HeaderSlice) : Nat :=
  read_be16 s.slice 2

/-- `Icmpv6HeaderSlice::bytes5to8`. -/
def Icmpv6HeaderSlice.bytes5to8 (s : Icmpv6HeaderSlice) : List Nat :=
  (s.slice.drop 4).take 4

/-- `Icmpv6HeaderSlice::to_header`: full decode, reading the type octet
at offset 0 and the code octet at offset 1. -/
def Icmpv6HeaderSlice.to_header (s : Icmpv6HeaderSlice) : Icmpv6Header :=
  { icmp_type := Icmp6Type.from_bytes (byteAt s.slice 0) (byteAt s.slice 1) s.bytes5to8
  , checksum := s.checksum }

/-- Follows the spec's words for claim C5, to be compared with the
source-derived `Icmp6Type.calc_checksum`: the RFC 4443 section 2.3
Internet checksum over the pseudo-header (16-octet source, 16-octet
destination, the upper-layer packet length as a 4-octet big-endian
integer, three zero octets, the next-header value 58) followed by the
8-octet ICMPv6 header with a zeroed checksum field and the payload. -/
def rfc4443Checksum (t : Icmp6Type) (ip_header : Ipv6Header)
    (payload : List Nat) : Nat :=
  onesComplement (checksumWordsSum
    (ip_header.source
      ++ ip_header.destination
      ++ u32_be_bytes (payload.length + 8)
      ++ [0, 0, 0, 58]
      ++ [(Icmp6Type.to_bytes t).1, (Icmp6Type.to_bytes t).2.1, 0, 0]
      ++ (Icmp6Type.to_bytes t).2.2
      ++ payload))

/-! Helper lemmas. -/

theorem byteAt_take (l : List Nat) : ∀ (n i : Nat), i < n →
    byteAt (l.take n) i = byteAt l i := by
  induction l with
  | nil => intro n i _; simp [byteAt]
  | cons a t ih =>
    intro n i hi
    cases n with
    | zero => omega
    | succ n =>
      cases i with
      | zero => simp [byteAt]
      | succ i => simpa [byteAt, List.getD] using ih n i (by omega)

theorem read_be16_take (l : List Nat) (n i : Nat) (h : i + 1 < n) :
    read_be16 (l.take n) i = read_be16 l i := by
  simp [read_be16, byteAt_take l n i (by omega), byteAt_take l n (i + 1) h]

theorem decode4_total_len (l : List Nat) (n : Nat) (h : 4 ≤ n) :
    (Ipv4Header.decode (l.take n)).total_len = read_be16 l 2 := by
  simp [Ipv4Header.decode, read_be16_take l n 2 (by omega)]

theorem decode4_protocol (l : List Nat) (n : Nat) (h : 10 ≤ n) :
    (Ipv4Header.decode (l.take n)).protocol = byteAt l 9 := by
  simp [Ipv4Header.decode, byteAt_take l n 9 (by omega)]

theorem decode6_payload_length (l : List Nat) :
    (Ipv6Header.decode (l.take 40)).payload_length = read_be16 l 4 := by
  simp [Ipv6Header.decode, read_be16_take l 40 4 (by omega)]

theorem decode6_next_header (l : List Nat) :
    (Ipv6Header.decode (l.take 40)).next_header = byteAt l 6 := by
  simp [Ipv6Header.decode, byteAt_take l 40 6 (by omega)]

theorem du_from_bytes_code (c : Nat) (b : List Nat) :
    (DestUnreachableHeader.from_bytes c b).code = c := by
  unfold DestUnreachableHeader.from_bytes
  split_ifs <;> simp_all [DestUnreachableHeader.code]

theorem te_fromCode_toCode (c : Nat) :
    (TimeExceededCode.fromCode c).toCode = c := by
  unfold TimeExceededCode.fromCode
  split_ifs <;> simp_all [TimeExceededCode.toCode]

theorem from_bytes_code_value (t c : Nat) (bs : List Nat)
    (h2 : t ≠ 2) (h128 : t ≠ 128) (h129 : t ≠ 129) :
    (Icmp6Type.from_bytes t c bs).code_value = c := by
  unfold Icmp6Type.from_bytes
  split_ifs <;>
    simp_all [Icmp6Type.code_value, du_from_bytes_code, te_fromCode_toCode,
      ParameterProblemCode.fromCode, ParameterProblemCode.toCode]

/-! Claim theorems. -/

/-- C7 counterexample: the claim requires that an input with type octet
2 and a non-zero code octet does not map to `PacketTooBig`, but the
decoder maps type 2 with code 1 to `PacketTooBig` nevertheless. -/
theorem c7_counterexample :
    Icmp6Type.from_bytes 2 1 [0, 0, 4, 0] = .PacketTooBig 1024 := by
  rfl

/-- C7 (amended): every 8-octet ICMPv6 header whose type octet is 2
decodes to `PacketTooBig` carrying the big-endian u32 of octets 4..8,
regardless of the code octet (which is discarded); emitting a
`PacketTooBig` value always writes type octet 2 and code octet 0. -/
theorem c7_packet_too_big_codec (code : Nat) (b : List Nat) (mtu : Nat) :
    Icmp6Type.from_bytes 2 code b = .PacketTooBig (read_be32 b 0)
    ∧ (Icmp6Type.PacketTooBig mtu).to_bytes = (2, 0, u32_be_bytes mtu) :=
  ⟨rfl, rfl⟩

/-- C10: `set_next_headers` returns the IPv4 ether type number 0x0800 in
both the Version4 and the Version6 arm. -/
theorem c10_set_next_headers_returns_ipv4_ether_type
    (h : IpHeader) (last_next_header : Nat) :
    (h.set_next_headers last_next_header).2 = 2048
    ∧ (h.set_next_headers last_next_header).2 = EtherType.IPV4 := by
  cases h <;> exact ⟨rfl, rfl⟩

/-- C9: for every slice of at least 8 octets accepted by
`Icmpv6HeaderSlice::from_slice`, the accessor `code_value` returns the
octet at offset 0 (the same value `type_value` returns), while the full
decode `to_header` reads the code from the octet at offset 1; for
type octets whose variant carries the code verbatim (every type octet
other than 2, 128 and 129) the two values differ whenever the first two
octets differ. -/
theorem c9_code_value_reads_type_octet (bytes : List Nat)
    (h8 : 8 ≤ bytes.length) :
    ∃ s, Icmpv6HeaderSlice.from_slice bytes = .ok s
      ∧ s.code_value = byteAt bytes 0
      ∧ s.type_value = s.code_value
      ∧ (byteAt bytes 0 ≠ 2 → byteAt bytes 0 ≠ 128 → byteAt bytes 0 ≠ 129 →
          s.to_header.icmp_type.code_value = byteAt bytes 1
          ∧ (byteAt bytes 0 ≠ byteAt bytes 1 →
              s.code_value ≠ s.to_header.icmp_type.code_value)) := by
  refine ⟨⟨bytes.take 8⟩, ?_, ?_, rfl, ?_⟩
  · unfold Icmpv6HeaderSlice.from_slice
    rw [if_neg (by omega)]
  · exact byteAt_take bytes 8 0 (by omega)
  · intro h2 h128 h129
    have hb0 : byteAt (bytes.take 8) 0 = byteAt bytes 0 := byteAt_take bytes 8 0 (by omega)
    have hb1 : byteAt (bytes.take 8) 1 = byteAt bytes 1 := byteAt_take bytes 8 1 (by omega)
    have hcode : (Icmpv6HeaderSlice.to_header ⟨bytes.take 8⟩).icmp_type.code_value
        = byteAt bytes 1 := by
      unfold Icmpv6HeaderSlice.to_header
      simp only [hb0, hb1]
      exact from_bytes_code_value _ _ _ h2 h128 h129
    refine ⟨hcode, fun hne => ?_⟩
    rw [hcode]
    unfold Icmpv6HeaderSlice.code_value
    simpa [hb0] using hne

/-- C9 witness at a "Destination Unreachable, port unreachable" header:
type octet 1, code octet 4. -/
theorem c9_witness :
    8 ≤ ([1, 4, 0, 0, 0, 0, 0, 0] : List Nat).length
    ∧ ∃ s, Icmpv6HeaderSlice.from_slice [1, 4, 0, 0, 0, 0, 0, 0] = .ok s
      ∧ s.code_value = byteAt [1, 4, 0, 0, 0, 0, 0, 0] 0
      ∧ s.type_value = s.code_value
      ∧ (byteAt [1, 4, 0, 0, 0, 0, 0, 0] 0 ≠ 2 →
          byteAt [1, 4, 0, 0, 0, 0, 0, 0] 0 ≠ 128 →
          byteAt [1, 4, 0, 0, 0, 0, 0, 0] 0 ≠ 129 →
          s.to_header.icmp_type.code_value = byteAt [1, 4, 0, 0, 0, 0, 0, 0] 1
          ∧ (byteAt [1, 4, 0, 0, 0, 0, 0, 0] 0 ≠ byteAt [1, 4, 0, 0, 0, 0, 0, 0] 1 →
              s.code_value ≠ s.to_header.icmp_type.code_value)) :=
  ⟨by decide, c9_code_value_reads_type_octet [1, 4, 0, 0, 0, 0, 0, 0] (by decide)⟩

/-- C6: for every ICMPv6 type, IPv6 header and payload within the
32-bit length bound, `with_checksum` succeeds and `is_checksum_valid`
accepts the same payload; any same-length payload with a different
computed checksum is rejected. -/
theorem c6_with_checksum_roundtrip (t : Icmp6Type) (ip : Ipv6Header)
    (pl pl' : List Nat)
    (hlen : pl.length + 8 ≤ 4294967295)
    (hlen' : pl'.length = pl.length) :
    ∃ hdr, Icmpv6Header.with_checksum t ip pl = .ok hdr
      ∧ hdr.is_checksum_valid ip pl = .ok true
      ∧ (t.calc_checksum ip pl' ≠ t.calc_checksum ip pl →
          hdr.is_checksum_valid ip pl' = .ok false) := by
  have hok : ∃ c, t.calc_checksum ip pl = .ok c := by
    unfold Icmp6Type.calc_checksum
    rw [if_neg (by simp only [Icmp6Type.header_len]; omega)]
    exact ⟨_, rfl⟩
  obtain ⟨c, hc⟩ := hok
  refine ⟨⟨t, c⟩, ?_, ?_, ?_⟩
  · unfold Icmpv6Header.with_checksum
    rw [hc]
  · unfold Icmpv6Header.is_checksum_valid
    simp [hc]
  · intro hne
    have hok' : ∃ c', t.calc_checksum ip pl' = .ok c' := by
      unfold Icmp6Type.calc_checksum
      rw [if_neg (by simp only [Icmp6Type.header_len]; omega)]
      exact ⟨_, rfl⟩
    obtain ⟨c', hc'⟩ := hok'
    have hcc : c ≠ c' := by
      intro h
      exact hne (by rw [hc', hc, h])
    unfold Icmpv6Header.is_checksum_valid
    simp [hc', hcc]

/-- C6 witness at an echo request with a one-octet payload and its
bit-flipped variant. -/
theorem c6_witness :
    ([0] : List Nat).length + 8 ≤ 4294967295
    ∧ ([1] : List Nat).length = ([0] : List Nat).length
    ∧ ∃ hdr, Icmpv6Header.with_checksum (.EchoRequest ⟨1, 2⟩)
        ⟨0, 0, 0, 58, 64, List.replicate 16 0, List.replicate 16 0⟩ [0] = .ok hdr
      ∧ hdr.is_checksum_valid
          ⟨0, 0, 0, 58, 64, List.replicate 16 0, List.replicate 16 0⟩ [0] = .ok true
      ∧ ((Icmp6Type.EchoRequest ⟨1, 2⟩).calc_checksum
            ⟨0, 0, 0, 58, 64, List.replicate 16 0, List.replicate 16 0⟩ [1]
          ≠ (Icmp6Type.EchoRequest ⟨1, 2⟩).calc_checksum
            ⟨0, 0, 0, 58, 64, List.replicate 16 0, List.replicate 16 0⟩ [0] →
          hdr.is_checksum_valid
            ⟨0, 0, 0, 58, 64, List.replicate 16 0, List.replicate 16 0⟩ [1] = .ok false) :=
  ⟨by decide, by decide,
    c6_with_checksum_roundtrip (.EchoRequest ⟨1, 2⟩)
      ⟨0, 0, 0, 58, 64, List.replicate 16 0, List.replicate 16 0⟩ [0] [1]
      (by decide) (by decide)⟩

theorem checksumWordsSum_replicate_zero : ∀ n : Nat,
    checksumWordsSum (List.replicate n 0) = 0
  | 0 => rfl
  | 1 => rfl
  | Nat.succ (Nat.succ n) => by
    simp only [List.replicate, checksumWordsSum, checksumWordsSum_replicate_zero n]


theorem checksumWordsSum_append : ∀ (l m : List Nat), l.length % 2 = 0 →
    checksumWordsSum (l ++ m) = checksumWordsSum l + checksumWordsSum m
  | [], m, _ => by simp [checksumWordsSum]
  | [_], _, h => by simp at h
  | a :: b :: tl, m, h => by
    have hl : tl.length % 2 = 0 := by
      simp only [List.length_cons] at h
      omega
    have ih := checksumWordsSum_append tl m hl
    simp only [List.cons_append, checksumWordsSum, List.append_eq] at ih ⊢
    omega

theorem foldCarries_of_lt {n : Nat} (h : n < 65536) : foldCarries n = n := by
  unfold foldCarries
  simp [h]

theorem c5gen (pl : List Nat) (h : pl.length = 65528)
    (hz : checksumWordsSum pl = 0) :
    Icmp6Type.calc_checksum (.EchoRequest ⟨0, 0⟩)
        ⟨0, 0, 0, 58, 64, List.replicate 16 0, List.replicate 16 0⟩ pl = .ok 32709
    ∧ rfc4443Checksum (.EchoRequest ⟨0, 0⟩)
        ⟨0, 0, 0, 58, 64, List.replicate 16 0, List.replicate 16 0⟩ pl = 32708 := by
  constructor
  · unfold Icmp6Type.calc_checksum
    rw [if_neg (by simp only [h, Icmp6Type.header_len]; omega)]
    simp only [h, hz, checksumWordsSum_replicate_zero, Icmp6Type.to_bytes,
      IcmpEchoHeader.to_bytes, Icmp6Type.header_len]
    norm_num [checksumWordsSum]
    simp only [onesComplement]
    rw [foldCarries_of_lt (by norm_num)]
  · unfold rfc4443Checksum
    simp only [h, Icmp6Type.to_bytes, IcmpEchoHeader.to_bytes]
    norm_num [checksumWordsSum_append, checksumWordsSum, u32_be_bytes,
      checksumWordsSum_replicate_zero, List.length_replicate, List.length_append,
      hz]
    simp only [onesComplement]
    rw [foldCarries_of_lt (by norm_num)]

/-- C5: evaluation of the source checksum and of the spec's RFC 4443
checksum at the failing input, an echo request with id 0 and sequence 0,
all-zero addresses, and a payload of 65528 zero octets. The upper-layer
packet length is 65536; the source folds it into the sum as the single
16-bit word `65536 mod 65536 = 0` (the `as u16` truncation) and returns
32709, while the RFC 4443 pseudo-header demanded by the claim carries
the length as a 4-octet big-endian integer whose 16-bit words are 1 and
0, giving 32708. The two disagree, so `calc_checksum` does not compute
the claimed RFC 4443 checksum for every payload within the 32-bit
bound. -/
theorem c5_truncated_length_at_failing_input :
    Icmp6Type.calc_checksum (.EchoRequest ⟨0, 0⟩)
        ⟨0, 0, 0, 58, 64, List.replicate 16 0, List.replicate 16 0⟩
        (List.replicate 65528 0) = .ok 32709
    ∧ rfc4443Checksum (.EchoRequest ⟨0, 0⟩)
        ⟨0, 0, 0, 58, 64, List.replicate 16 0, List.replicate 16 0⟩
        (List.replicate 65528 0) = 32708 :=
  c5gen (List.replicate 65528 0) (List.length_replicate 65528 0)
    (checksumWordsSum_replicate_zero 65528)

/-- C1: for every slice on the v4 path of `IpHeader::from_slice` that
passes the version, minimum-length, IHL and header-length checks: a
total length below the header length fails with the
`Ipv4HeaderTotalLen`-sourced length error carrying the header length as
`required_len` and the total length as `len` at layer `Ipv4Packet`; a
slice shorter than the total length fails with the `Slice`-sourced
length error at layer `Ipv4Packet`; otherwise the extension walk runs
on a window of exactly `total_len - IHL * 4` octets. -/
theorem c1_v4_length_governance (bytes : List Nat) (hl tl : Nat)
    (hhl : hl = byteAt bytes 0 % 16 * 4)
    (htl : tl = read_be16 bytes 2)
    (hv : byteAt bytes 0 / 16 = 4)
    (h20 : 20 ≤ bytes.length)
    (hihl : 5 ≤ byteAt bytes 0 % 16)
    (hlen : hl ≤ bytes.length) :
    (tl < hl → IpHeader.from_slice bytes =
      .error (.Len ⟨hl, tl, .Ipv4HeaderTotalLen, .Ipv4Packet, 0⟩))
    ∧ (hl ≤ tl → bytes.length < tl → IpHeader.from_slice bytes =
      .error (.Len ⟨tl, bytes.length, .Slice, .Ipv4Packet, 0⟩))
    ∧ (hl ≤ tl → tl ≤ bytes.length →
      IpHeader.from_slice bytes =
        ipv4WalkAndBuild (Ipv4Header.decode (bytes.take hl)) hl
          ((bytes.drop hl).take (tl - hl))
      ∧ ((bytes.drop hl).take (tl - hl)).length = tl - hl) := by
  subst hhl htl
  have htot : (Ipv4Header.decode (bytes.take (byteAt bytes 0 % 16 * 4))).total_len
      = read_be16 bytes 2 := decode4_total_len bytes _ (by omega)
  refine ⟨fun h1 => ?_, fun h1 h2 => ?_, fun h1 h2 => ⟨?_, ?_⟩⟩
  · unfold IpHeader.from_slice
    rw [if_neg (by omega), if_pos hv, if_neg (by omega), if_neg (by omega),
      if_neg (by omega), htot, if_pos h1]
  · unfold IpHeader.from_slice
    rw [if_neg (by omega), if_pos hv, if_neg (by omega), if_neg (by omega),
      if_neg (by omega), htot, if_neg (by omega), if_pos h2]
  · unfold IpHeader.from_slice
    rw [if_neg (by omega), if_pos hv, if_neg (by omega), if_neg (by omega),
      if_neg (by omega), htot, if_neg (by omega), if_neg (by omega)]
  · simp only [List.length_take, List.length_drop]
    omega

/-- Concrete input of the C1 witness: a 20-octet v4 header whose total
length field is 10, smaller than the 20-octet header length. -/
def c1bytes : List Nat := [69, 0, 0, 10, 0, 0, 0, 0, 64, 17, 0, 0, 0, 0, 0, 0, 0, 0, 0, 0]

/-- C1 witness. -/
theorem c1_witness :
    (20 = byteAt c1bytes 0 % 16 * 4 ∧ 10 = read_be16 c1bytes 2
      ∧ byteAt c1bytes 0 / 16 = 4 ∧ 20 ≤ c1bytes.length
      ∧ 5 ≤ byteAt c1bytes 0 % 16 ∧ 20 ≤ c1bytes.length)
    ∧ ((10 < 20 → IpHeader.from_slice c1bytes =
        .error (.Len ⟨20, 10, .Ipv4HeaderTotalLen, .Ipv4Packet, 0⟩))
      ∧ (20 ≤ 10 → c1bytes.length < 10 → IpHeader.from_slice c1bytes =
        .error (.Len ⟨10, c1bytes.length, .Slice, .Ipv4Packet, 0⟩))
      ∧ (20 ≤ 10 → 10 ≤ c1bytes.length →
        IpHeader.from_slice c1bytes =
          ipv4WalkAndBuild (Ipv4Header.decode (c1bytes.take 20)) 20
            ((c1bytes.drop 20).take (10 - 20))
        ∧ ((c1bytes.drop 20).take (10 - 20)).length = 10 - 20)) :=
  ⟨⟨by decide, by decide, by decide, by decide, by decide, by decide⟩,
    c1_v4_length_governance c1bytes 20 10 (by decide) (by decide) (by decide)
      (by decide) (by decide) (by decide)⟩

/-- C2: whenever the extension walker invoked by `IpHeader::from_slice`
returns a length error, the returned error has `layer_start_offset`
increased by the octets consumed before delegation (the IPv4 header
length on the v4 path, 40 on the v6 path) and its length source
overridden (to `Ipv4HeaderTotalLen` on the v4 path; on the v6 path to
the source that governed the payload window: `Slice` in the jumbogram
fallback, `Ipv6HeaderPayloadLen` otherwise); content errors are
propagated without length context. -/
theorem c2_walker_error_mapping (bytes : List Nat) :
    ((byteAt bytes 0 / 16 = 4 ∧ 20 ≤ bytes.length ∧ 5 ≤ byteAt bytes 0 % 16
        ∧ byteAt bytes 0 % 16 * 4 ≤ bytes.length
        ∧ byteAt bytes 0 % 16 * 4 ≤ read_be16 bytes 2
        ∧ read_be16 bytes 2 ≤ bytes.length) →
      (∀ e, Ipv4Extensions.from_slice
            (Ipv4Header.decode (bytes.take (byteAt bytes 0 % 16 * 4))).protocol
            ((bytes.drop (byteAt bytes 0 % 16 * 4)).take
              (read_be16 bytes 2 - byteAt bytes 0 % 16 * 4)) = .error (.Len e) →
          IpHeader.from_slice bytes = .error (.Len { e with
            len_source := .Ipv4HeaderTotalLen,
            layer_start_offset := e.layer_start_offset + byteAt bytes 0 % 16 * 4 }))
      ∧ (∀ ce, Ipv4Extensions.from_slice
            (Ipv4Header.decode (bytes.take (byteAt bytes 0 % 16 * 4))).protocol
            ((bytes.drop (byteAt bytes 0 % 16 * 4)).take
              (read_be16 bytes 2 - byteAt bytes 0 % 16 * 4)) = .error (.Content ce) →
          IpHeader.from_slice bytes = .error (.Content (.Ipv4Ext ce))))
    ∧ ((byteAt bytes 0 / 16 = 6 ∧ read_be16 bytes 4 = 0 ∧ 40 < bytes.length) →
      (∀ e, Ipv6Extensions.from_slice (Ipv6Header.decode (bytes.take 40)).next_header
            (bytes.drop 40) = .error (.Len e) →
          IpHeader.from_slice bytes = .error (.Len { e with
            len_source := .Slice, layer_start_offset := e.layer_start_offset + 40 }))
      ∧ (∀ ce, Ipv6Extensions.from_slice (Ipv6Header.decode (bytes.take 40)).next_header
            (bytes.drop 40) = .error (.Content ce) →
          IpHeader.from_slice bytes = .error (.Content (.Ipv6Ext ce))))
    ∧ ((byteAt bytes 0 / 16 = 6 ∧ 40 ≤ bytes.length
        ∧ ¬(read_be16 bytes 4 = 0 ∧ 40 < bytes.length)
        ∧ 40 + read_be16 bytes 4 ≤ bytes.length) →
      (∀ e, Ipv6Extensions.from_slice (Ipv6Header.decode (bytes.take 40)).next_header
            ((bytes.drop 40).take (read_be16 bytes 4)) = .error (.Len e) →
          IpHeader.from_slice bytes = .error (.Len { e with
            len_source := .Ipv6HeaderPayloadLen,
            layer_start_offset := e.layer_start_offset + 40 }))
      ∧ (∀ ce, Ipv6Extensions.from_slice (Ipv6Header.decode (bytes.take 40)).next_header
            ((bytes.drop 40).take (read_be16 bytes 4)) = .error (.Content ce) →
          IpHeader.from_slice bytes = .error (.Content (.Ipv6Ext ce)))) := by
  refine ⟨fun hv4 => ?_, fun hv6j => ?_, fun hv6n => ?_⟩
  · obtain ⟨hv, h20, hihl, hlen, htlo, hthi⟩ := hv4
    have htot : (Ipv4Header.decode (bytes.take (byteAt bytes 0 % 16 * 4))).total_len
        = read_be16 bytes 2 := decode4_total_len bytes _ (by omega)
    constructor
    · intro e he
      unfold IpHeader.from_slice
      rw [if_neg (by omega), if_pos hv, if_neg (by omega), if_neg (by omega),
        if_neg (by omega), htot, if_neg (by omega), if_neg (by omega)]
      unfold ipv4WalkAndBuild
      rw [he]
    · intro ce he
      unfold IpHeader.from_slice
      rw [if_neg (by omega), if_pos hv, if_neg (by omega), if_neg (by omega),
        if_neg (by omega), htot, if_neg (by omega), if_neg (by omega)]
      unfold ipv4WalkAndBuild
      rw [he]
  · obtain ⟨hv6, hpl0, hgt⟩ := hv6j
    have hpl6 := decode6_payload_length bytes
    constructor
    · intro e he
      unfold IpHeader.from_slice
      rw [if_neg (by omega), if_neg (by simp [hv6]), if_pos hv6, if_neg (by omega),
        hpl6, if_pos ⟨hpl0, hgt⟩]
      unfold ipv6WalkAndBuild
      rw [he]
    · intro ce he
      unfold IpHeader.from_slice
      rw [if_neg (by omega), if_neg (by simp [hv6]), if_pos hv6, if_neg (by omega),
        hpl6, if_pos ⟨hpl0, hgt⟩]
      unfold ipv6WalkAndBuild
      rw [he]
  · obtain ⟨hv6, h40, hnj, hfit⟩ := hv6n
    have hpl6 := decode6_payload_length bytes
    constructor
    · intro e he
      unfold IpHeader.from_slice
      rw [if_neg (by omega), if_neg (by simp [hv6]), if_pos hv6, if_neg (by omega),
        hpl6, if_neg hnj, if_neg (by omega)]
      unfold ipv6WalkAndBuild
      rw [he]
    · intro ce he
      unfold IpHeader.from_slice
      rw [if_neg (by omega), if_neg (by simp [hv6]), if_pos hv6, if_neg (by omega),
        hpl6, if_neg hnj, if_neg (by omega)]
      unfold ipv6WalkAndBuild
      rw [he]

/-- Concrete input of the C2 witness: a v4 packet with protocol 51
(Authentication Header) whose total length leaves only a 2-octet window
for the 12-octet minimum of the authentication header. -/
def c2bytes : List Nat :=
  [69, 0, 0, 22, 0, 0, 0, 0, 64, 51, 0, 0, 0, 0, 0, 0, 0, 0, 0, 0, 1, 1]

/-- C2 witness. -/
theorem c2_witness :
    (byteAt c2bytes 0 / 16 = 4 ∧ 20 ≤ c2bytes.length ∧ 5 ≤ byteAt c2bytes 0 % 16
      ∧ byteAt c2bytes 0 % 16 * 4 ≤ c2bytes.length
      ∧ byteAt c2bytes 0 % 16 * 4 ≤ read_be16 c2bytes 2
      ∧ read_be16 c2bytes 2 ≤ c2bytes.length)
    ∧ Ipv4Extensions.from_slice
        (Ipv4Header.decode (c2bytes.take (byteAt c2bytes 0 % 16 * 4))).protocol
        ((c2bytes.drop (byteAt c2bytes 0 % 16 * 4)).take
          (read_be16 c2bytes 2 - byteAt c2bytes 0 % 16 * 4))
        = .error (.Len ⟨12, 2, .Slice, .IpAuthHeader, 0⟩)
    ∧ IpHeader.from_slice c2bytes
        = .error (.Len ⟨12, 2, .Ipv4HeaderTotalLen, .IpAuthHeader, 20⟩) := by
  refine ⟨⟨by decide, by decide, by decide, by decide, by decide, by decide⟩, rfl, ?_⟩
  exact (c2_walker_error_mapping c2bytes).1
    ⟨by decide, by decide, by decide, by decide, by decide, by decide⟩
    |>.1 ⟨12, 2, .Slice, .IpAuthHeader, 0⟩ rfl

theorem ipv6WalkAndBuild_ok_len_source (hdr : Ipv6Header) (ls : LenSource)
    (w : List Nat) (ih : IpHeader) (p : IpPayload) :
    ipv6WalkAndBuild hdr ls w = .ok (ih, p) → p.len_source = ls := by
  unfold ipv6WalkAndBuild
  cases hq : Ipv6Extensions.from_slice hdr.next_header w with
  | error e =>
    cases e with
    | Len e => intro h; cases h
    | Content e => intro h; cases h
  | ok v =>
    obtain ⟨exts, nh, rest⟩ := v
    intro h
    simp only [Except.ok.injEq, Prod.mk.injEq] at h
    rw [← h.2]

/-- C3: for every slice with version nibble 6, `payload_length` 0 and
length strictly greater than 40, `IpHeader::from_slice` does not fail
at the length-governance step: it proceeds to the extension walk over
the entire remainder of the slice after the 40-octet fixed header as
the payload window with length source `Slice`, and any successful parse
returns a payload descriptor whose `len_source` is `Slice`. -/
theorem c3_v6_jumbogram_fallback (bytes : List Nat)
    (hv : byteAt bytes 0 / 16 = 6)
    (hpl : read_be16 bytes 4 = 0)
    (hlen : 40 < bytes.length) :
    IpHeader.from_slice bytes =
      ipv6WalkAndBuild (Ipv6Header.decode (bytes.take 40)) .Slice (bytes.drop 40)
    ∧ ∀ ih p, IpHeader.from_slice bytes = .ok (ih, p) → p.len_source = .Slice := by
  have hpl6 := decode6_payload_length bytes
  have h1 : IpHeader.from_slice bytes =
      ipv6WalkAndBuild (Ipv6Header.decode (bytes.take 40)) .Slice (bytes.drop 40) := by
    unfold IpHeader.from_slice
    rw [if_neg (by omega), if_neg (by simp [hv]), if_pos hv, if_neg (by omega),
      hpl6, if_pos ⟨hpl, hlen⟩]
  refine ⟨h1, fun ih p hp => ?_⟩
  rw [h1] at hp
  exact ipv6WalkAndBuild_ok_len_source _ _ _ _ _ hp

/-- Concrete input of the C3 witness: a 41-octet v6 slice with
`payload_length` 0 and a non-extension next header (59). -/
def c3bytes : List Nat := 96 :: 0 :: 0 :: 0 :: 0 :: 0 :: 59 :: List.replicate 34 0

/-- C3 witness. -/
theorem c3_witness :
    (byteAt c3bytes 0 / 16 = 6 ∧ read_be16 c3bytes 4 = 0 ∧ 40 < c3bytes.length)
    ∧ (IpHeader.from_slice c3bytes =
        ipv6WalkAndBuild (Ipv6Header.decode (c3bytes.take 40)) .Slice (c3bytes.drop 40)
      ∧ ∀ ih p, IpHeader.from_slice c3bytes = .ok (ih, p) → p.len_source = .Slice) :=
  ⟨⟨by decide, by decide, by decide⟩,
    c3_v6_jumbogram_fallback c3bytes (by decide) (by decide) (by decide)⟩

/-- C8 counterexample: a 40-octet slice with version nibble 6,
`payload_length` 0 and next header 0 (hop-by-hop) satisfies every
premise of the claim, yet `IpHeader::from_slice` fails (the extension
walk needs 2 octets of the empty window) instead of succeeding with an
empty payload. -/
theorem c8_counterexample :
    (96 :: List.replicate 39 0 : List Nat).length = 40
    ∧ byteAt (96 :: List.replicate 39 0) 0 / 16 = 6
    ∧ read_be16 (96 :: List.replicate 39 0) 4 = 0
    ∧ IpHeader.from_slice (96 :: List.replicate 39 0)
        = .error (.Len ⟨2, 0, .Ipv6HeaderPayloadLen, .Ipv6HopByHopHeader, 40⟩) :=
  ⟨by decide, rfl, rfl, rfl⟩

theorem ipv6_walk_non_ext (fuel : Nat) (exts : Ipv6Extensions) (n : Nat)
    (w : List Nat) (h0 : n ≠ 0) (h43 : n ≠ 43) (h44 : n ≠ 44) (h60 : n ≠ 60)
    (h51 : n ≠ 51) :
    Ipv6Extensions.walk fuel exts n w = .ok (exts, n, w) := by
  cases fuel with
  | zero => rfl
  | succ f =>
    unfold Ipv6Extensions.walk
    rw [if_neg h0, if_neg h43, if_neg h44, if_neg h60, if_neg h51]

/-- C8 (amended): for every slice of length exactly 40 with version
nibble 6 and `payload_length` 0, the jumbogram fallback does not apply:
the payload window is the empty window governed by `payload_length`
with length source `Ipv6HeaderPayloadLen`; when additionally the fixed
header's next header is not an extension-header number, the parse
succeeds with an empty payload slice and a descriptor whose
`len_source` is `Ipv6HeaderPayloadLen`, not `Slice`. -/
theorem c8_exact_40_payload_len_window (bytes : List Nat)
    (hlen : bytes.length = 40)
    (hv : byteAt bytes 0 / 16 = 6)
    (hpl : read_be16 bytes 4 = 0) :
    IpHeader.from_slice bytes =
      ipv6WalkAndBuild (Ipv6Header.decode (bytes.take 40)) .Ipv6HeaderPayloadLen
        ((bytes.drop 40).take (read_be16 bytes 4))
    ∧ (byteAt bytes 6 ≠ 0 → byteAt bytes 6 ≠ 43 → byteAt bytes 6 ≠ 44 →
        byteAt bytes 6 ≠ 51 → byteAt bytes 6 ≠ 60 →
        IpHeader.from_slice bytes =
          .ok (.Version6 (Ipv6Header.decode (bytes.take 40)) Ipv6Extensions.empty,
            ⟨byteAt bytes 6, false, .Ipv6HeaderPayloadLen, []⟩)) := by
  have hpl6 := decode6_payload_length bytes
  have hnext := decode6_next_header bytes
  have hwin : (bytes.drop 40).take (read_be16 bytes 4) = [] := by
    rw [hpl]
    simp
  have h1 : IpHeader.from_slice bytes =
      ipv6WalkAndBuild (Ipv6Header.decode (bytes.take 40)) .Ipv6HeaderPayloadLen
        ((bytes.drop 40).take (read_be16 bytes 4)) := by
    unfold IpHeader.from_slice
    rw [if_neg (by omega), if_neg (by simp [hv]), if_pos hv, if_neg (by omega),
      hpl6, if_neg (by omega), if_neg (by omega), hpl]
  refine ⟨h1, fun h0 h43 h44 h51 h60 => ?_⟩
  rw [h1, hwin]
  unfold ipv6WalkAndBuild
  have hw : Ipv6Extensions.from_slice
      (Ipv6Header.decode (bytes.take 40)).next_header [] =
      .ok (Ipv6Extensions.empty, byteAt bytes 6, []) := by
    unfold Ipv6Extensions.from_slice
    rw [hnext]
    exact ipv6_walk_non_ext _ _ _ _ h0 h43 h44 h60 h51
  rw [hw]
  simp [Ipv6Extensions.is_fragmenting_payload, Ipv6Extensions.empty]

/-- Concrete input of the C8 witness: a 40-octet v6 slice with
`payload_length` 0 and a non-extension next header (59). -/
def c8bytes : List Nat := 96 :: 0 :: 0 :: 0 :: 0 :: 0 :: 59 :: List.replicate 33 0

/-- C8 witness. -/
theorem c8_witness :
    (c8bytes.length = 40 ∧ byteAt c8bytes 0 / 16 = 6 ∧ read_be16 c8bytes 4 = 0)
    ∧ (IpHeader.from_slice c8bytes =
        ipv6WalkAndBuild (Ipv6Header.decode (c8bytes.take 40)) .Ipv6HeaderPayloadLen
          ((c8bytes.drop 40).take (read_be16 c8bytes 4))
      ∧ (byteAt c8bytes 6 ≠ 0 → byteAt c8bytes 6 ≠ 43 → byteAt c8bytes 6 ≠ 44 →
          byteAt c8bytes 6 ≠ 51 → byteAt c8bytes 6 ≠ 60 →
          IpHeader.from_slice c8bytes =
            .ok (.Version6 (Ipv6Header.decode (c8bytes.take 40)) Ipv6Extensions.empty,
              ⟨byteAt c8bytes 6, false, .Ipv6HeaderPayloadLen, []⟩))) :=
  ⟨⟨by decide, by decide, by decide⟩,
    c8_exact_40_payload_len_window c8bytes (by decide) (by decide) (by decide)⟩

/-- C4: `IpHeader::from_slice` fails with the length error carrying
`required_len` 1, `len` 0, length source `Slice`, layer `IpHeader` and
offset 0 exactly when the input slice is empty; and it fails with
`UnsupportedIpVersion v` exactly when the slice is non-empty, the high
nibble of its first octet is `v`, and `v` is neither 4 nor 6. -/
theorem c4_empty_and_version_dispatch (bytes : List Nat) :
    (IpHeader.from_slice bytes = .error (.Len ⟨1, 0, .Slice, .IpHeader, 0⟩) ↔ bytes = [])
    ∧ ∀ v, (IpHeader.from_slice bytes = .error (.Content (.UnsupportedIpVersion v)) ↔
        (bytes ≠ [] ∧ byteAt bytes 0 / 16 = v ∧ v ≠ 4 ∧ v ≠ 6)) := by
  constructor
  · constructor
    · intro h
      by_cases hnil : bytes = []
      · exact hnil
      · exfalso
        have hlen0 : ¬ bytes.length = 0 := by
          cases bytes with
          | nil => exact absurd rfl hnil
          | cons a t => simp
        unfold IpHeader.from_slice ipv4WalkAndBuild ipv6WalkAndBuild at h
        rw [if_neg hlen0] at h
        repeat' split at h
        all_goals simp_all
    · intro h
      rw [h]
      rfl
  · intro v
    constructor
    · intro h
      by_cases hnil : bytes = []
      · rw [hnil] at h
        simp [IpHeader.from_slice] at h
      · have hlen0 : ¬ bytes.length = 0 := by
          cases bytes with
          | nil => exact absurd rfl hnil
          | cons a t => simp
        unfold IpHeader.from_slice ipv4WalkAndBuild ipv6WalkAndBuild at h
        rw [if_neg hlen0] at h
        repeat' split at h
        all_goals first
          | (exfalso; simp_all; done)
          | (simp only [Except.error.injEq, HeaderSliceError.Content.injEq,
              IpHeaderError.UnsupportedIpVersion.injEq] at h
             refine ⟨hnil, h, ?_, ?_⟩ <;> omega)
    · intro hv
      obtain ⟨hnil, hnib, h4, h6⟩ := hv
      have hlen0 : ¬ bytes.length = 0 := by
        cases bytes with
        | nil => exact absurd rfl hnil
        | cons a t => simp
      unfold IpHeader.from_slice
      rw [if_neg hlen0, if_neg (by omega), if_neg (by omega), hnib]

/-- C4 witness: the empty-slice direction applied at the empty slice
and the version direction applied at a single octet with high nibble
7. -/
theorem c4_witness :
    IpHeader.from_slice [] = .error (.Len ⟨1, 0, .Slice, .IpHeader, 0⟩)
    ∧ IpHeader.from_slice [112] = .error (.Content (.UnsupportedIpVersion 7)) :=
  ⟨(c4_empty_and_version_dispatch []).1.mpr rfl,
    ((c4_empty_and_version_dispatch [112]).2 7).mpr
      ⟨by decide, by decide, by decide, by decide⟩⟩
